import Mathlib

/-!
Verification of the PTY resize-control codec of obsidian-opencode-sidebar.

The repository ships two platform variants:
* `terminal_pty.py` — Unix: a chunk-scanning codec `handle_resize_escape`
  that strips `ESC ] RESIZE ; <cols> ; <rows> BEL` directives from an input
  chunk, applies the resize via `set_size` and signals the child.
* `terminal_win.py` — Windows: a per-character state machine
  (`WindowsPTY.handle_input`) that buffers a tentative directive and hands a
  complete one to `WindowsPTY.handle_resize`.

Bytes and characters are modelled as `Nat` codes; the side effects of the
Unix codec (ioctl, SIGWINCH, stderr reports) are modelled as an explicit
trace of `PtyEffect`s in the order the code would perform them.
-/

set_option autoImplicit false

namespace OpencodePty

/-- The byte sequence of the literal `b'\x1b]RESIZE;'` (9 bytes:
ESC `]` `R` `E` `S` `I` `Z` `E` `;`). -/
def resizeLit : List Nat := [27, 93, 82, 69, 83, 73, 90, 69, 59]

/-- `s.startswith(p)` of Python, on byte lists. -/
def startswith : List Nat → List Nat → Bool
  | _, [] => true
  | [], _ :: _ => false
  | a :: s, b :: p => a == b && startswith s p

/-- `pat in s` (substring occurrence) of Python, on byte lists. -/
def containsSeq : List Nat → List Nat → Bool
  | [], pat => startswith [] pat
  | a :: s, pat => startswith (a :: s) pat || containsSeq s pat

/-- `s.split(';')` of Python on byte lists: fields between `;` (byte 59),
empty fields kept, `[]` splitting to `[[]]` as `''.split(';') == ['']`. -/
def split_semi : List Nat → List (List Nat)
  | [] => [[]]
  | c :: rest =>
    if c = 59 then [] :: split_semi rest
    else
      match split_semi rest with
      | [] => [[c]]
      | f :: fs => (c :: f) :: fs

/-- An ASCII decimal digit. -/
def isDigit (c : Nat) : Bool := 48 ≤ c && c ≤ 57

/-- Numeric value of a digit string (most significant first). -/
def digitsToNat (l : List Nat) : Nat := l.foldl (fun a c => a * 10 + (c - 48)) 0

/-- `int(s)` of Python on a field: an optional `+`/`-` sign followed by a
nonempty run of decimal digits parses; anything else raises `ValueError`
(modelled as `none`).  Surrounding whitespace and digit-group underscores,
which Python also accepts, are not modelled: no claim here involves them. -/
def py_int (s : List Nat) : Option Int :=
  match s with
  | 43 :: rest =>
    if rest ≠ [] && rest.all isDigit then some (Int.ofNat (digitsToNat rest)) else none
  | 45 :: rest =>
    if rest ≠ [] && rest.all isDigit then some (-(Int.ofNat (digitsToNat rest))) else none
  | _ =>
    if s ≠ [] && s.all isDigit then some (Int.ofNat (digitsToNat s)) else none

/-- `params.decode('utf-8')` modelled on the ASCII range: non-ASCII bytes are
treated as a decode failure (`UnicodeDecodeError`, a `ValueError`).  The
parameter bytes of every well-formed directive are ASCII. -/
def decode_utf8_ascii (body : List Nat) : Option (List Nat) :=
  if body.all (fun b => b < 128) then some body else none

/-- One observable side effect of the Unix codec, in program order. -/
inductive PtyEffect where
  /-- `set_size(fd, cols, rows)`: `fcntl.ioctl(fd, TIOCSWINSZ, pack)` applied. -/
  | setSize (cols rows : Int)
  /-- `os.kill(child_pid, signal.SIGWINCH)`. -/
  | sigwinch (pid : Nat)
  /-- `sys.stderr.write("Resize error: ...")` from the
  `except (ValueError, OSError)` clause. -/
  | reportError
  /-- `struct.error` raised by `struct.pack('HHHH', rows, cols, 0, 0)` on a
  value outside `0..65535`; it is not a `ValueError` or `OSError`, so the
  `except` clause of `handle_resize_escape` would not catch it. -/
  | structError
  deriving DecidableEq

/-- `set_size(fd, cols, rows)` of `terminal_pty.py`:
`struct.pack('HHHH', rows, cols, 0, 0)` demands both values in `0..65535`
(else `struct.error`), then `fcntl.ioctl(fd, TIOCSWINSZ, size)` applies the
size.  The success path of the ioctl is modelled; an `OSError` from the OS
would be caught by the caller and reported. -/
def set_size (cols rows : Int) : List PtyEffect :=
  if 0 ≤ rows ∧ rows < 65536 ∧ 0 ≤ cols ∧ cols < 65536 then
    [PtyEffect.setSize cols rows]
  else
    [PtyEffect.structError]

/-- The `try` block of `handle_resize_escape` applied to the parameter bytes
between the prefix end and the terminator: decode, split on `;`, unpack into
exactly two fields, convert with `int`, call `set_size`, then
`os.kill(child_pid, SIGWINCH)` when `child_pid` is truthy.  Any
`ValueError` along the way is reported to stderr. -/
def apply_resize (child_pid : Option Nat) (body : List Nat) : List PtyEffect :=
  match decode_utf8_ascii body with
  | none => [PtyEffect.reportError]
  | some params =>
    match split_semi params with
    | [colsField, rowsField] =>
      match py_int colsField, py_int rowsField with
      | some cols, some rows =>
        match set_size cols rows with
        | [PtyEffect.setSize c r] =>
          PtyEffect.setSize c r ::
            (match child_pid with
             | some p => if p = 0 then [] else [PtyEffect.sigwinch p]
             | none => [])
        | effs => effs
      | _, _ => [PtyEffect.reportError]
    | _ => [PtyEffect.reportError]

/-- `data.find(b'\x07', i)` relative to position `i`: the offset of the
first BEL byte (7) in the suffix, `none` when there is none (`-1`). -/
def find_bel : List Nat → Option Nat
  | [] => none
  | c :: rest => if c = 7 then some 0 else (find_bel rest).map (· + 1)

/-- `handle_resize_escape(data, fd)` of `terminal_pty.py`, with the loop
index `i` replaced by the suffix `data[i:]`.  At each position the code
compares the 8-byte slice `data[i:i+8]` against the 9-byte literal
`b'\x1b]RESIZE;'`; on a match it looks for the terminator `end`, runs the
`try` block on `data[i+8:end]` and resumes at `end + 1`, otherwise (or when
no terminator exists) the current byte goes to `result` and `i` advances by
one.  Returns the `result` bytes and the effect trace. -/
def handle_resize_escape (child_pid : Option Nat) : List Nat → List Nat × List PtyEffect
  | [] => ([], [])
  | c :: rest =>
    if (c :: rest).take 8 = resizeLit then
      match find_bel (c :: rest) with
      | some e =>
        let effs := apply_resize child_pid (((c :: rest).drop 8).take (e - 8))
        let r := handle_resize_escape child_pid ((c :: rest).drop (e + 1))
        (r.1, effs ++ r.2)
      | none =>
        let r := handle_resize_escape child_pid rest
        (c :: r.1, r.2)
    else
      let r := handle_resize_escape child_pid rest
      (c :: r.1, r.2)
termination_by data => data.length
decreasing_by
  all_goals simp only [List.length_drop, List.length_cons]
  all_goals omega

/-- The parameter extraction of `WindowsPTY.handle_resize` of
`terminal_win.py`: `params = data[8:-1]` (strip 8 leading characters and the
trailing BEL), `cols, rows = params.split(';')` (exactly two fields or
`ValueError`), `int` conversion of both.  `some (cols, rows)` means
`self.proc.setwinsize(int(rows), int(cols))` is reached with these values;
`none` means the `except` clause writes `"Resize error: ..."` to stderr and
no resize is applied. -/
def resize_params (data : List Nat) : Option (Int × Int) :=
  match split_semi ((data.drop 8).dropLast) with
  | [colsField, rowsField] =>
    match py_int colsField, py_int rowsField with
    | some cols, some rows => some (cols, rows)
    | _, _ => none
  | _ => none

/-- `WindowsPTY.handle_input` of `terminal_win.py` over a finite input
stream, written as a transducer whose first argument is the mode: `none` is
the outer per-character loop, `some buf` is the inner loop that accumulates
`buffer` after an ESC was read.  Returns the concatenation of the
`self.proc.write(...)` calls and the list of `(cols, rows)` pairs for which
`handle_resize` reaches `setwinsize`.  The loop otherwise runs while
`self.running and self.proc.isalive()`; the stream end models EOF
(`sys.stdin.read(1)` returning `''`), on which both loops `break` after
forwarding any pending buffer. -/
def handle_input_go : Option (List Nat) → List Nat → List Nat × List (Int × Int)
  | none, [] => ([], [])
  | none, c :: rest =>
    if c = 27 then
      handle_input_go (some [27]) rest
    else
      let r := handle_input_go none rest
      (c :: r.1, r.2)
  | some buf, [] => (buf, [])
  | some buf, c :: rest =>
    let buf2 := buf ++ [c]
    if startswith buf2 resizeLit then
      if c = 7 then
        let r := handle_input_go none rest
        (r.1, (resize_params buf2).toList ++ r.2)
      else
        handle_input_go (some buf2) rest
    else if buf2.length > 50 then
      let r := handle_input_go none rest
      (buf2 ++ r.1, r.2)
    else if startswith resizeLit (buf2.take 9) = false then
      let r := handle_input_go none rest
      (buf2 ++ r.1, r.2)
    else
      handle_input_go (some buf2) rest

/-- `WindowsPTY.handle_input` from its initial state. -/
def handle_input (data : List Nat) : List Nat × List (Int × Int) :=
  handle_input_go none data

/-- The fields of a `WindowsPTY` object of `terminal_win.py` that the resize
path touches.  `procDims` is the `(rows, cols)` dimension pair held by the
underlying `winpty.PtyProcess` (`none` before `start`); `cols`/`rows` are
the object's own recorded attributes, set in `__init__`. -/
structure WindowsPTY where
  cols : Int
  rows : Int
  cmd : List String
  procDims : Option (Int × Int)
  running : Bool
  deriving DecidableEq

/-- `WindowsPTY.__init__(self, cols, rows, cmd)`. -/
def WindowsPTY.init (cols rows : Int) (cmd : List String) : WindowsPTY :=
  { cols := cols, rows := rows, cmd := cmd, procDims := none, running := true }

/-- The command string `WindowsPTY.start` hands to `PtyProcess.spawn`:
`' '.join(self.cmd)` when the command is a list. -/
def winptySpawnCommand (cmd : List String) : String :=
  String.intercalate " " cmd

/-- `WindowsPTY.start`: `PtyProcess.spawn(cmd_str, dimensions=(self.rows,
self.cols))`.  Returns the updated object and the spawned command string. -/
def WindowsPTY.start (p : WindowsPTY) : WindowsPTY × String :=
  ({ p with procDims := some (p.rows, p.cols) }, winptySpawnCommand p.cmd)

/-- `WindowsPTY.handle_resize(self, data)`: on a successful parse,
`self.proc.setwinsize(int(rows), int(cols))` updates the process dimensions;
`self.cols` and `self.rows` are not assigned anywhere in the method.  On any
exception the error is written to stderr and the object is unchanged. -/
def WindowsPTY.handle_resize (p : WindowsPTY) (data : List Nat) : WindowsPTY :=
  match resize_params data with
  | some (cols, rows) => { p with procDims := some (rows, cols) }
  | none => p

/-- The `exec` invocation of the Unix variant's child branch:
`os.execvp(cmd[0], cmd)` passes the argument list through verbatim
(`cmd[0]` would raise `IndexError` on an empty list, which `main` rules out
by requiring at least one command argument). -/
def execvpInvocation : List String → Option (String × List String)
  | [] => none
  | c0 :: rest => some (c0, c0 :: rest)

/-! ### Helper lemmas -/

/-- An 8-byte slice never equals the 9-byte literal: the guard of
`handle_resize_escape`'s directive branch is unsatisfiable. -/
theorem take8_ne_resizeLit (l : List Nat) : l.take 8 ≠ resizeLit := by
  intro h
  have h1 : (l.take 8).length = 9 := by rw [h]; rfl
  rw [List.length_take] at h1
  have h2 := Nat.min_le_left 8 l.length
  omega

/-- The Unix codec is the identity and performs no effect on every chunk:
the 8-byte slice comparison of `handle_resize_escape` never matches the
9-byte directive literal. -/
theorem handle_resize_escape_id (child_pid : Option Nat) (data : List Nat) :
    handle_resize_escape child_pid data = (data, []) := by
  induction data with
  | nil => simp [handle_resize_escape]
  | cons c rest ih =>
    rw [handle_resize_escape]
    rw [if_neg (take8_ne_resizeLit (c :: rest))]
    simp [ih]

theorem startswith_length {s p : List Nat} (h : startswith s p = true) :
    p.length ≤ s.length := by
  induction p generalizing s with
  | nil => simp
  | cons b p ih =>
    cases s with
    | nil => simp [startswith] at h
    | cons a s =>
      simp only [startswith, Bool.and_eq_true] at h
      have := ih h.2
      simp only [List.length_cons]
      omega

theorem startswith_eq_of_length_le {s p : List Nat} (h : startswith s p = true)
    (hl : s.length ≤ p.length) : s = p := by
  induction p generalizing s with
  | nil =>
    cases s with
    | nil => rfl
    | cons a s => simp at hl
  | cons b p ih =>
    cases s with
    | nil => simp [startswith] at h
    | cons a s =>
      simp only [startswith, Bool.and_eq_true, beq_iff_eq] at h
      have := ih h.2 (by simpa using hl)
      simp [h.1, this]

theorem startswith_append (p t : List Nat) : startswith (p ++ t) p = true := by
  induction p with
  | nil => simp [startswith]
  | cons a p ih => simp [startswith, ih]

theorem containsSeq_of_startswith {s p : List Nat} (hp : p ≠ [])
    (h : startswith s p = true) : containsSeq s p = true := by
  cases s with
  | nil =>
    cases p with
    | nil => exact absurd rfl hp
    | cons b q => simp [startswith] at h
  | cons a s => simp [containsSeq, h]

theorem containsSeq_cons_false {a : Nat} {s p : List Nat}
    (h : containsSeq (a :: s) p = false) :
    startswith (a :: s) p = false ∧ containsSeq s p = false := by
  simpa [containsSeq] using h

theorem containsSeq_append_false {xs s p : List Nat}
    (h : containsSeq (xs ++ s) p = false) : containsSeq s p = false := by
  induction xs with
  | nil => exact h
  | cons a xs ih =>
    rw [List.cons_append] at h
    exact ih (containsSeq_cons_false h).2

/-- The interactive variant is the identity and applies no resize on every
stream that does not contain the directive literal, whatever the pending
buffer state: while buffering, every byte that makes the buffer diverge from
the literal flushes it verbatim, and without an occurrence of the literal
the full-prefix branch is never reached. -/
theorem handle_input_go_id (data : List Nat) :
    (containsSeq data resizeLit = false → handle_input_go none data = (data, [])) ∧
    (∀ buf, startswith resizeLit buf = true → buf ≠ [] → buf.length < 9 →
      containsSeq (buf ++ data) resizeLit = false →
      handle_input_go (some buf) data = (buf ++ data, [])) := by
  induction data with
  | nil =>
    refine ⟨fun _ => rfl, fun buf _ _ _ _ => ?_⟩
    simp [handle_input_go]
  | cons c rest ih =>
    refine ⟨fun h => ?_, fun buf hsw hne hlen hcc => ?_⟩
    · rcases containsSeq_cons_false h with ⟨hsw0, hrest⟩
      by_cases hc : c = 27
      · subst hc
        have h27 : startswith resizeLit [27] = true := by decide
        have hr := ih.2 [27] h27 (by simp) (by simp) (by simpa using h)
        simp only [handle_input_go, if_pos rfl]
        simpa using hr
      · simp only [handle_input_go, if_neg hc, ih.1 hrest]
    · cases h1 : startswith (buf ++ [c]) resizeLit with
      | true =>
        exfalso
        have hl := startswith_length h1
        have heq : buf ++ [c] = resizeLit := by
          refine startswith_eq_of_length_le h1 ?_
          have : (buf ++ [c]).length = buf.length + 1 := by simp
          simp only [resizeLit, List.length_cons, List.length_nil]
          omega
        have hocc : containsSeq (buf ++ c :: rest) resizeLit = true := by
          rw [List.append_cons, heq]
          exact containsSeq_of_startswith (by simp [resizeLit]) (startswith_append _ _)
        rw [hocc] at hcc
        exact Bool.noConfusion hcc
      | false =>
        have h2 : ¬((buf ++ [c]).length > 50) := by
          have : (buf ++ [c]).length = buf.length + 1 := by simp
          omega
        cases h3 : startswith resizeLit ((buf ++ [c]).take 9) with
        | false =>
          have hrest : containsSeq rest resizeLit = false := by
            have hx := @containsSeq_append_false buf (c :: rest) resizeLit hcc
            exact (containsSeq_cons_false hx).2
          have hr := ih.1 hrest
          simp only [handle_input_go]
          rw [if_neg (by simp [h1]), if_neg h2, if_pos h3, hr]
          simp
        | true =>
          have htake : (buf ++ [c]).take 9 = buf ++ [c] := by
            refine List.take_of_length_le ?_
            have : (buf ++ [c]).length = buf.length + 1 := by simp
            omega
          rw [htake] at h3
          have hlt9 : (buf ++ [c]).length < 9 := by
            rcases Nat.lt_or_ge ((buf ++ [c]).length) 9 with h9 | h9
            · exact h9
            · exfalso
              have heq : resizeLit = buf ++ [c] := by
                refine startswith_eq_of_length_le h3 ?_
                simpa [resizeLit] using h9
              rw [← heq] at h1
              have hself : startswith resizeLit resizeLit = true := by
                have := startswith_append resizeLit []
                simpa using this
              rw [hself] at h1
              exact Bool.noConfusion h1
          have hcc2 : containsSeq ((buf ++ [c]) ++ rest) resizeLit = false := by
            rw [← List.append_cons]; exact hcc
          have hr := ih.2 (buf ++ [c]) h3 (by simp) hlt9 hcc2
          simp only [handle_input_go]
          rw [if_neg (by simp [h1]), if_neg h2, if_neg (by simp [htake, h3]), hr]
          simp

/-- The interactive variant's pass-through identity from the initial mode. -/
theorem handle_input_id {data : List Nat} (h : containsSeq data resizeLit = false) :
    handle_input data = (data, []) :=
  (handle_input_go_id data).1 h

/-! ### The claims -/

/-- Claim C1: on a chunk of plain bytes around one well-formed directive
(`HI` + `ESC ] RESIZE ; 8 0 ; 2 4 BEL` + `JK`, child pid 9), the codec is
claimed to strip the directive and apply one resize (80, 24).  The code
instead forwards the whole chunk, directive bytes included, and applies no
resize and no signal: its guard compares the 8-byte slice `data[i:i+8]`
against the 9-byte literal `b'\x1b]RESIZE;'`, which never matches. -/
theorem c1_directive_forwarded_unstripped :
    handle_resize_escape (some 9)
        ([72, 73] ++ resizeLit ++ [56, 48, 59, 50, 52, 7] ++ [74, 75]) =
      ([72, 73] ++ resizeLit ++ [56, 48, 59, 50, 52, 7] ++ [74, 75], []) :=
  handle_resize_escape_id _ _

/-- Claim C2: on every chunk without the literal prefix `ESC ] RESIZE ;`,
both the chunk-scanning codec and the interactive per-character variant
return the input unchanged and apply no resize. -/
theorem c2_pass_through_identity (child_pid : Option Nat) (data : List Nat)
    (h : containsSeq data resizeLit = false) :
    handle_resize_escape child_pid data = (data, []) ∧
      handle_input data = (data, []) :=
  ⟨handle_resize_escape_id child_pid data, handle_input_id h⟩

/-- Witness for C2 at the concrete directive-free chunk `hello`. -/
theorem c2_pass_through_identity_witness :
    containsSeq [104, 101, 108, 108, 111] resizeLit = false ∧
      (handle_resize_escape (some 5) [104, 101, 108, 108, 111] =
          ([104, 101, 108, 108, 111], []) ∧
        handle_input [104, 101, 108, 108, 111] =
          ([104, 101, 108, 108, 111], [])) :=
  ⟨by decide, c2_pass_through_identity (some 5) [104, 101, 108, 108, 111] (by decide)⟩

/-- Claim C3: a chunk in which the directive prefix occurs but no BEL
follows (`A` + `ESC ] RESIZE ;` + `9 9`) must not have the truncated prefix
forwarded as plain data.  The code forwards the whole chunk unchanged: the
prefix guard never matches (8-byte slice against 9-byte literal), and even
a matching guard would fall through to the plain-byte path when
`data.find(b'\x07', i)` returns `-1`. -/
theorem c3_truncated_prefix_forwarded :
    handle_resize_escape none ([65] ++ resizeLit ++ [57, 57]) =
      ([65] ++ resizeLit ++ [57, 57], []) :=
  handle_resize_escape_id _ _

/-- Claim C4: the interactive pending buffer is claimed never to grow past
50 characters without being finalized or abandoned, and to be forwarded
verbatim on overflow.  On the stream `ESC ] RESIZE ;` + 60 × `a` + BEL +
`Z` the code keeps buffering far past the bound — the 50-character check
sits on an `elif` that is skipped once the buffer starts with the full
prefix — and at the BEL the 70 buffered bytes are handed to
`handle_resize` (whose parse fails) and then discarded, never forwarded:
only `Z` reaches the child, and no resize is applied. -/
theorem c4_buffer_grows_past_bound_and_is_dropped :
    handle_input (resizeLit ++ List.replicate 60 97 ++ [7, 90]) = ([90], []) := by
  decide

/-- Claim C5: a directive with invalid dimensions
(`ESC ] RESIZE ; 0 ; 0 BEL`, child pid 3) is claimed to be discarded with a
reported, non-fatal error.  The code never detects the directive at all: it
forwards the span verbatim to the child and reports nothing. -/
theorem c5_invalid_dims_not_reported :
    handle_resize_escape (some 3) (resizeLit ++ [48, 59, 48, 7]) =
      (resizeLit ++ [48, 59, 48, 7], []) :=
  handle_resize_escape_id _ _

/-- Claim C6: after a resize directive to (132, 43) on a backend spawned at
(80, 24), the recorded dimensions are claimed to equal (132, 43).  In the
code `handle_resize` never assigns `self.cols`/`self.rows`, and its parse
(`data[8:-1]` keeps the leading `;`, so the two-field unpack raises) never
reaches `setwinsize`: the object keeps `cols = 80`, `rows = 24` and the
process keeps its spawn dimensions `(24, 80)`. -/
theorem c6_recorded_dims_never_updated :
    (WindowsPTY.handle_resize ((WindowsPTY.init 80 24 ["opencode"]).start.1)
        (resizeLit ++ [49, 51, 50, 59, 52, 51, 7])) =
      { cols := 80, rows := 24, cmd := ["opencode"], procDims := some (24, 80),
        running := true } := by
  decide

/-- Claim C7: a chunk holding two well-formed directives
(`...80;24 BEL` then `...100;30 BEL`) is claimed to apply both in order,
ending at (100, 30).  The code applies neither: the whole chunk is
forwarded verbatim with an empty effect trace. -/
theorem c7_two_directives_apply_nothing :
    handle_resize_escape (some 2)
        (resizeLit ++ [56, 48, 59, 50, 52, 7] ++
          resizeLit ++ [49, 48, 48, 59, 51, 48, 7]) =
      (resizeLit ++ [56, 48, 59, 50, 52, 7] ++
        resizeLit ++ [49, 48, 48, 59, 51, 48, 7], []) :=
  handle_resize_escape_id _ _

/-- Claim C8: a directive span with a malformed body
(`ESC ] RESIZE ; a b c ; 1 0 BEL`) is claimed to be consumed, reported and
not forwarded in both variants.  The interactive variant does consume it
without forwarding and without resizing, but the chunk codec forwards the
whole span verbatim to the child and reports nothing. -/
theorem c8_malformed_span_forwarded_on_unix :
    handle_resize_escape (some 1) (resizeLit ++ [97, 98, 99, 59, 49, 48, 7]) =
        (resizeLit ++ [97, 98, 99, 59, 49, 48, 7], []) ∧
      handle_input (resizeLit ++ [97, 98, 99, 59, 49, 48, 7]) = ([], []) :=
  ⟨handle_resize_escape_id _ _, by decide⟩

/-- Claim C9: every successful resize on the Unix backend is claimed to
deliver SIGWINCH to the child after applying the size.  No resize ever
succeeds: on a well-formed directive (`100;40`, live child pid 42) the
effect trace is empty — no `setSize` and no `sigwinch` — because the
directive is never detected. -/
theorem c9_no_resize_and_no_sigwinch :
    handle_resize_escape (some 42) (resizeLit ++ [49, 48, 48, 59, 52, 48, 7]) =
      (resizeLit ++ [49, 48, 48, 59, 52, 48, 7], []) :=
  handle_resize_escape_id _ _

/-- Claim C10: the Windows backend joins the argument list with spaces
before spawning, so distinct argument lists with the same space-join spawn
the same child invocation, while the Unix backend passes the list to
`execvp` verbatim: witnessed by `["opencode", "run", "a b"]` versus
`["opencode", "run", "a", "b"]`. -/
theorem c10_win_join_collides_unix_preserves :
    (∀ cmd : List String, winptySpawnCommand cmd = String.intercalate " " cmd) ∧
      (∀ c0 : String, ∀ rest : List String,
        execvpInvocation (c0 :: rest) = some (c0, c0 :: rest)) ∧
      (["opencode", "run", "a b"] ≠ ["opencode", "run", "a", "b"] ∧
        winptySpawnCommand ["opencode", "run", "a b"] =
          winptySpawnCommand ["opencode", "run", "a", "b"] ∧
        execvpInvocation ["opencode", "run", "a b"] ≠
          execvpInvocation ["opencode", "run", "a", "b"]) :=
  ⟨fun _ => rfl, fun _ _ => rfl, by decide, by decide, by decide⟩

end OpencodePty
